import Mathlib

/-!
Shallow embedding of `src/main.rs` of gnu_sentinel_cloud: the shared state
store (live status, config, bounded alert ring) and the capture ingest and
thermal-matrix analysis pipeline, together with the HTTP handlers under
verification.  External collaborators (the filesystem, the npy codec, the
float parser for the `angle` field) are passed in as explicit function
parameters; everything the handlers themselves compute is modelled
faithfully, statement by statement, from the Rust source.
-/

set_option autoImplicit false

namespace SentinelCloud

/-- Model of a Rust `f32` value for the comparisons the code performs.
Finite values are carried exactly as rationals (no arithmetic other than
comparison is modelled through this type), plus the three special values
the code manipulates: `NaN`, `+infinity` (`f32::INFINITY`) and
`-infinity` (`f32::NEG_INFINITY`). -/
inductive F32 where
  | nan : F32
  | inf : F32
  | neginf : F32
  | finite (q : ℚ) : F32
deriving DecidableEq, Repr

/-- The total comparison used by `f32::min`/`f32::max` on non-NaN operands:
`-inf` below everything, `+inf` above everything, finite values by their
exact rational order.  (`NaN` never reaches a comparison in `min`/`max`:
Rust returns the other operand first.) -/
def F32.leb : F32 → F32 → Bool
  | .neginf, _ => true
  | _, .inf => true
  | .inf, _ => false
  | _, .neginf => false
  | .finite a, .finite b => decide (a ≤ b)
  | .nan, _ => false
  | _, .nan => false

/-- Rust `f32::min`: if one argument is NaN the other argument is returned;
otherwise the smaller of the two. -/
def F32.min (a b : F32) : F32 :=
  match a, b with
  | .nan, b => b
  | a, .nan => a
  | a, b => if a.leb b then a else b

/-- Rust `f32::max`: if one argument is NaN the other argument is returned;
otherwise the larger of the two. -/
def F32.max (a b : F32) : F32 :=
  match a, b with
  | .nan, b => b
  | a, .nan => a
  | a, b => if a.leb b then b else a

/-- An `ndarray::Array2<f32>` as produced by `read_npy`: `dim()` returns
`(rows, cols)` and `data` lists the rows (each of length `cols` for a
well-formed array). -/
structure Grid where
  rows : Nat
  cols : Nat
  data : List (List F32)
deriving DecidableEq, Repr

/-- Rectangularity of the decoded array — automatic for every array
`read_npy` can actually produce. -/
def Grid.WF (g : Grid) : Prop :=
  g.data.length = g.rows ∧ ∀ row ∈ g.data, row.length = g.cols

instance (g : Grid) : Decidable g.WF := by
  unfold Grid.WF; infer_instance

/-- `matrix.fold(f32::INFINITY, |a, &b| a.min(b))` (main.rs line 215). -/
def foldMin (g : Grid) : F32 :=
  g.data.flatten.foldl F32.min F32.inf

/-- `matrix.fold(f32::NEG_INFINITY, |a, &b| a.max(b))`
(main.rs lines 216 and 363). -/
def foldMax (g : Grid) : F32 :=
  g.data.flatten.foldl F32.max F32.neginf

/-- `LiveStatus` (main.rs lines 36-43).  `last_update` is a `u64` unix
timestamp, modelled as a natural number below `2^64`. -/
structure LiveStatus where
  last_update : Nat
  turbine_token : String
  mode : String
  current_angle : F32
  current_max_temp : F32
  is_online : Bool
deriving DecidableEq, Repr

/-- `AlertRecord` (main.rs lines 47-54). -/
structure AlertRecord where
  id : String
  timestamp : Nat
  turbine_token : String
  max_temp : F32
  angle : F32
  dataset_path : String
deriving DecidableEq, Repr

/-- `ThermalFrameData` (main.rs lines 76-83): the JSON payload of the
matrix endpoint. -/
structure ThermalFrameData where
  width : Nat
  height : Nat
  min_temp : F32
  max_temp : F32
  pixels : List F32
deriving DecidableEq, Repr

/-- `EvolutionPoint` (main.rs lines 58-62). -/
structure EvolutionPoint where
  frame_index : Nat
  max_temp : F32
  avg_temp : F32
deriving DecidableEq, Repr

/-- HTTP statuses the handlers return. -/
inductive HStatus where
  | notFound : HStatus
  | internalServerError : HStatus
  | badRequest : HStatus
deriving DecidableEq, Repr

/-- Client-error (4xx) statuses. -/
def HStatus.isClientError : HStatus → Bool
  | .notFound => true
  | .badRequest => true
  | .internalServerError => false

/-- Whether `pat` occurs as a contiguous run inside `l` — the semantics of
Rust `str::contains` with a string pattern. -/
def listContainsSeq (pat : List Char) : List Char → Bool
  | [] => pat.isEmpty
  | c :: rest => pat.isPrefixOf (c :: rest) || listContainsSeq pat rest

/-- Rust `filename.contains("..") || filename.contains('/') ||
filename.contains('\\')` (main.rs line 165): the path-traversal test of the
download handler. -/
def containsTraversal (s : String) : Bool :=
  listContainsSeq (String.toList "..") s.toList
    || s.toList.contains '/' || s.toList.contains '\\'

/-- Result of the download handler: the HTTP outcome plus whether the
handler touched the filesystem on the way. -/
inductive DlStatus where
  | ok (bytes : List Nat) : DlStatus
  | badRequest : DlStatus
  | notFound : DlStatus
deriving DecidableEq, Repr

structure DownloadResult where
  status : DlStatus
  fsAccessed : Bool
deriving DecidableEq, Repr

/-- `download_file_handler` (main.rs lines 160-185).  `fs` models the
contents of the `cloud_storage` directory (name to bytes).  The handler
first checks the filename for `..`, `/`, `\` and answers 400 without any
filesystem access; only then does it read the file (404 when absent). -/
def download_file_handler (fs : String → Option (List Nat)) (filename : String) :
    DownloadResult :=
  if containsTraversal filename then
    { status := .badRequest, fsAccessed := false }
  else
    match fs filename with
    | some bytes => { status := .ok bytes, fsAccessed := true }
    | none => { status := .notFound, fsAccessed := true }

deriving instance DecidableEq for Except

structure MatrixResult where
  result : Except HStatus ThermalFrameData
  fsAccessed : Bool
deriving DecidableEq, Repr

/-- `get_matrix_handler` (main.rs lines 189-229).  `parse` models
`Array2::<f32>::read_npy`.  The Rust code performs `File::open` (a
filesystem access) unconditionally — there is no traversal check — then
decodes (500 on failure), then rejects `frame_index > 0` with 400, and
otherwise returns the statistics and the row-major pixel list. -/
def get_matrix_handler (fs : String → Option (List Nat))
    (parse : List Nat → Option Grid) (filename : String) (frame_index : Nat) :
    MatrixResult :=
  match fs filename with
  | none => { result := .error .notFound, fsAccessed := true }
  | some bytes =>
    match parse bytes with
    | none => { result := .error .internalServerError, fsAccessed := true }
    | some matrix =>
      if frame_index > 0 then { result := .error .badRequest, fsAccessed := true }
      else
        { result := .ok
            { width := matrix.cols
              height := matrix.rows
              min_temp := foldMin matrix
              max_temp := foldMax matrix
              pixels := matrix.data.flatten }
          fsAccessed := true }

/-- `get_evolution_data` (main.rs lines 296-316).  Both a missing file and
a decode failure fall through the `if let` chain and the handler answers
with whatever `points` holds — the empty list — as a success.  `favg`
stands for the f32 arithmetic `sum / count` of the mean (its rounding is
outside every claim). -/
def get_evolution_data (fs : String → Option (List Nat))
    (parse : List Nat → Option Grid) (favg : Grid → F32) (filename : String) :
    List EvolutionPoint :=
  match fs filename with
  | none => []
  | some bytes =>
    match parse bytes with
    | none => []
    | some matrix => [{ frame_index := 0, max_temp := foldMax matrix, avg_temp := favg matrix }]

/-- `u64::saturating_add` on values already below `2^64`. -/
def saturatingAdd64 (a b : Nat) : Nat :=
  if a + b ≤ 2 ^ 64 - 1 then a + b else 2 ^ 64 - 1

/-- `get_live_status` (main.rs lines 262-270): clone the stored status
under a read lock, and on the clone set `is_online = false` and
`mode = "Lost Connection"` when `now > last_update.saturating_add(5)`.
Returns (response, stored state after the call); the handler never takes
the write lock, so the stored state is returned untouched. -/
def get_live_status (stored : LiveStatus) (now : Nat) : LiveStatus × LiveStatus :=
  let status := stored
  let status :=
    if now > saturatingAdd64 status.last_update 5 then
      { status with is_online := false, mode := "Lost Connection" }
    else status
  (status, stored)

/-- `get_alerts` (main.rs lines 291-294): `alerts.iter().cloned().collect()`
over the `VecDeque`, front (newest) first.  The deque is modelled as a list
whose head is the front. -/
def get_alerts (alerts : List AlertRecord) : List AlertRecord :=
  alerts

/-- The alert-ring update of `upload_handler` (main.rs lines 378-381):
`push_front(alert)` then, if the length exceeds 50, `pop_back()`. -/
def pushRing (r : AlertRecord) (ring : List AlertRecord) : List AlertRecord :=
  let ring1 := r :: ring
  if ring1.length > 50 then ring1.dropLast else ring1

/-- One multipart field as the upload handler consumes it: its name, its
text content when it decodes as text (`field.text()`), and its raw bytes
(`field.bytes()`). -/
structure MpField where
  name : String
  text : Option String
  bytes : List Nat
deriving DecidableEq, Repr

/-- The mutable locals of `upload_handler` (main.rs lines 336-339) plus the
list of files successfully written so far. -/
structure UpAcc where
  turbine_token : String
  angle : F32
  file_saved_name : String
  temp_max_detected : F32
  writes : List (String × List Nat)
deriving DecidableEq, Repr

/-- `capture_{turbine_token}_{timestamp}.npz` (main.rs line 352). -/
def captureName (token : String) (now : Nat) : String :=
  "capture_" ++ token ++ "_" ++ toString now ++ ".npz"

/-- The `while let Some(field)` loop of `upload_handler` (main.rs lines
341-366).  `writeOk` models `tokio::fs::write` succeeding for a given
(path, bytes); a failed write returns early with `"write_error"`
(modelled as `Except.error`).  On a `dataset_file` field the handler saves
the in-memory bytes and then parses those same bytes; a parse failure
leaves `temp_max_detected` unchanged. -/
def uploadLoop (parse : List Nat → Option Grid)
    (writeOk : String → List Nat → Bool) (parseAngle : String → Option F32)
    (now : Nat) : List MpField → UpAcc → Except UpAcc UpAcc
  | [], acc => .ok acc
  | f :: rest, acc =>
    if f.name = "turbine_token" then
      uploadLoop parse writeOk parseAngle now rest
        { acc with turbine_token :=
            match f.text with
            | some txt => txt
            | none => acc.turbine_token }
    else if f.name = "angle" then
      uploadLoop parse writeOk parseAngle now rest
        { acc with angle :=
            match f.text with
            | some txt => (parseAngle txt).getD (F32.finite 0)
            | none => acc.angle }
    else if f.name = "dataset_file" then
      let fname := captureName acc.turbine_token now
      if writeOk fname f.bytes then
        uploadLoop parse writeOk parseAngle now rest
          { acc with
              file_saved_name := fname
              temp_max_detected :=
                match parse f.bytes with
                | some matrix => foldMax matrix
                | none => acc.temp_max_detected
              writes := acc.writes ++ [(fname, f.bytes)] }
      else .error { acc with file_saved_name := fname }
    else uploadLoop parse writeOk parseAngle now rest acc

/-- Outcome of one upload request: the response string, the files written,
and the alert ring after the request. -/
structure UploadOutcome where
  response : String
  writes : List (String × List Nat)
  alerts : List AlertRecord
deriving DecidableEq, Repr

/-- `upload_handler` (main.rs lines 332-384).  After the field loop, an
`AlertRecord` is pushed exactly when `file_saved_name` is non-empty; `newId`
models the fresh `uuid` and `now` the request timestamp. -/
def upload_handler (parse : List Nat → Option Grid)
    (writeOk : String → List Nat → Bool) (parseAngle : String → Option F32)
    (now : Nat) (newId : String) (fields : List MpField)
    (alerts0 : List AlertRecord) : UploadOutcome :=
  match uploadLoop parse writeOk parseAngle now fields
      { turbine_token := "", angle := F32.finite 0, file_saved_name := ""
        temp_max_detected := F32.finite 0, writes := [] } with
  | .error acc => { response := "write_error", writes := acc.writes, alerts := alerts0 }
  | .ok acc =>
    if acc.file_saved_name ≠ "" then
      let alert : AlertRecord :=
        { id := newId
          timestamp := now
          turbine_token := acc.turbine_token
          max_temp := acc.temp_max_detected
          angle := acc.angle
          dataset_path := acc.file_saved_name }
      { response := "upload_success", writes := acc.writes
        alerts := pushRing alert alerts0 }
    else
      { response := "upload_success", writes := acc.writes, alerts := alerts0 }

/-! Concrete fixtures used by witnesses and counterexamples. -/

/-- The 2×2 grid `[[1,2],[3,4]]` of the spec scenario. -/
def g22 : Grid :=
  ⟨2, 2, [[F32.finite 1, F32.finite 2], [F32.finite 3, F32.finite 4]]⟩

/-- A 1×2 grid containing a NaN next to a finite value. -/
def gnan : Grid := ⟨1, 2, [[F32.nan, F32.finite 1]]⟩

/-- A storage directory holding one file `a.npz`. -/
def mFs : String → Option (List Nat) := fun n => if n = "a.npz" then some [0] else none

/-- Codec decoding the bytes of `a.npz` to `g22`. -/
def mParse : List Nat → Option Grid := fun b => if b = [0] then some g22 else none

/-- A storage directory holding one file `n.npz`. -/
def nanFs : String → Option (List Nat) := fun n => if n = "n.npz" then some [7] else none

/-- Codec decoding the bytes of `n.npz` to `gnan`. -/
def nanParse : List Nat → Option Grid := fun b => if b = [7] then some gnan else none

/-- A storage directory holding one malformed file `bad.npz`. -/
def badFs : String → Option (List Nat) := fun n => if n = "bad.npz" then some [9] else none

/-- A codec for which every payload is malformed. -/
def badParse : List Nat → Option Grid := fun _ => none

/-- A storage directory in which the traversal name `../../etc/passwd`
resolves to an existing (non-npy) file, as `/etc/passwd` does. -/
def trFs : String → Option (List Nat) :=
  fun n => if n = "../../etc/passwd" then some [0] else none

/-- A mean computation (value irrelevant to every claim). -/
def favg0 : Grid → F32 := fun _ => F32.finite 0

/-- A stored live status written by a heartbeat at time 0. -/
def stored0 : LiveStatus :=
  ⟨0, "T1", "Scanning", F32.finite 45, F32.finite 30, true⟩

/-- A filesystem on which every write succeeds. -/
def wOkTrue : String → List Nat → Bool := fun _ _ => true

/-- A filesystem on which every write fails. -/
def wOkFalse : String → List Nat → Bool := fun _ _ => false

/-- An `angle` parser that always fails (value irrelevant to the claims). -/
def paNone : String → Option F32 := fun _ => none

/-- A `turbine_token` multipart field. -/
def tokField : MpField := ⟨"turbine_token", some "T1", []⟩

/-- An `angle` multipart field. -/
def angField : MpField := ⟨"angle", some "45", []⟩

/-- A `dataset_file` multipart field carrying the bytes of `a.npz`. -/
def dsField : MpField := ⟨"dataset_file", none, [0]⟩

/-- A `dataset_file` field whose bytes no codec accepts. -/
def dsBadField : MpField := ⟨"dataset_file", none, [9]⟩

/-- A concrete alert record with a given id. -/
def mkRec (i : Nat) : AlertRecord :=
  ⟨toString i, 0, "T1", F32.finite 0, F32.finite 0, "p"⟩

/-- Fifty pairwise distinct alert records (ids "1" .. "50"). -/
def rest50 : List AlertRecord := (List.range 50).map (fun i => mkRec (i + 1))

/-- The record pushed first (the oldest) in the 51-push scenario. -/
def rec0 : AlertRecord := mkRec 0

/-- Token accumulation over the multipart fields: the value the local
`turbine_token` has after the loop has consumed `fields` (main.rs
lines 344-345). -/
def tokFold : List MpField → String → String
  | [], tok => tok
  | f :: rest, tok =>
    tokFold rest
      (if f.name = "turbine_token" then
        match f.text with
        | some txt => txt
        | none => tok
      else tok)

/-- Angle accumulation over the multipart fields (main.rs lines 346-347). -/
def angFold (parseAngle : String → Option F32) : List MpField → F32 → F32
  | [], a => a
  | f :: rest, a =>
    angFold parseAngle rest
      (if f.name = "angle" then
        match f.text with
        | some txt => (parseAngle txt).getD (F32.finite 0)
        | none => a
      else a)

/-! Helper lemmas. -/

lemma F32.min_nan_right (a : F32) : F32.min a .nan = a := by
  cases a <;> rfl

lemma F32.max_nan_right (a : F32) : F32.max a .nan = a := by
  cases a <;> rfl

lemma F32.min_ne_nan (a b : F32) (ha : a ≠ .nan) (hb : b ≠ .nan) :
    F32.min a b ≠ .nan := by
  cases a <;> cases b <;> simp_all [F32.min] <;> split <;> simp_all

lemma F32.max_ne_nan (a b : F32) (ha : a ≠ .nan) (hb : b ≠ .nan) :
    F32.max a b ≠ .nan := by
  cases a <;> cases b <;> simp_all [F32.max] <;> split <;> simp_all

/-- A fold by an operation that returns the other operand on NaN and never
creates a NaN from non-NaN operands never sees the NaN entries of the list:
they may be filtered away without changing the result. -/
lemma foldl_skip_nan (op : F32 → F32 → F32)
    (h1 : ∀ a, a ≠ F32.nan → op a F32.nan = a)
    (h2 : ∀ a b, a ≠ F32.nan → b ≠ F32.nan → op a b ≠ F32.nan) :
    ∀ (l : List F32) (acc : F32), acc ≠ F32.nan →
      l.foldl op acc = (l.filter (fun x => !decide (x = F32.nan))).foldl op acc := by
  intro l
  induction l with
  | nil => intro acc _; rfl
  | cons b rest ih =>
    intro acc hacc
    by_cases hb : b = F32.nan
    · subst hb
      simpa [List.filter, h1 acc hacc] using ih acc hacc
    · simpa [List.filter, hb] using ih (op acc b) (h2 acc b hacc hb)

lemma pushRing_eq_take (r : AlertRecord) (ring : List AlertRecord)
    (h : ring.length ≤ 50) : pushRing r ring = (r :: ring).take 50 := by
  unfold pushRing
  by_cases hl : (r :: ring).length > 50
  · simp only [hl, if_pos]
    rw [List.dropLast_eq_take]
    congr 1
    simp at hl ⊢
    omega
  · simp only [hl, if_neg, not_false_iff]
    rw [List.take_of_length_le]
    simp at hl ⊢
    omega

lemma pushRing_length (r : AlertRecord) (ring : List AlertRecord)
    (h : ring.length ≤ 50) : (pushRing r ring).length ≤ 50 := by
  rw [pushRing_eq_take r ring h, List.length_take]
  omega

lemma pushRing_head (r : AlertRecord) (ring : List AlertRecord) :
    (pushRing r ring).head? = some r := by
  cases ring with
  | nil => simp [pushRing]
  | cons x t => unfold pushRing; dsimp only; split <;> rfl

lemma take_append_take (xs ys : List AlertRecord) (n : Nat) :
    (xs ++ ys.take n).take n = (xs ++ ys).take n := by
  rw [List.take_append_eq_append_take, List.take_append_eq_append_take,
    List.take_take]
  congr 2
  omega

lemma foldl_pushRing :
    ∀ (rs acc : List AlertRecord), acc.length ≤ 50 →
      rs.foldl (fun ring r => pushRing r ring) acc = (rs.reverse ++ acc).take 50 := by
  intro rs
  induction rs with
  | nil =>
    intro acc h
    simp [List.take_of_length_le h]
  | cons r rest ih =>
    intro acc h
    rw [List.foldl_cons, ih (pushRing r acc) (pushRing_length r acc h),
      pushRing_eq_take r acc h, take_append_take, List.reverse_cons,
      List.append_assoc]
    rfl

lemma flatten_rect_length {α : Type} (cols : Nat) :
    ∀ data : List (List α), (∀ row ∈ data, row.length = cols) →
      data.flatten.length = data.length * cols := by
  intro data
  induction data with
  | nil => intro _; simp
  | cons row rest ih =>
    intro h
    have hrow : row.length = cols := h row (by simp)
    have hrest : ∀ r ∈ rest, r.length = cols := fun r hr => h r (by simp [hr])
    simp only [List.flatten_cons, List.length_append, List.length_cons, ih hrest,
      hrow]
    ring

lemma flatten_rect_get {α : Type} (cols : Nat) :
    ∀ (data : List (List α)) (i j : Nat),
      (∀ row ∈ data, row.length = cols) → i < data.length → j < cols →
      data.flatten[i * cols + j]? = data[i]?.bind (fun row => row[j]?) := by
  intro data
  induction data with
  | nil => intro i j _ hi _; exact absurd hi (by simp)
  | cons row rest ih =>
    intro i j h hi hj
    have hrow : row.length = cols := h row (by simp)
    have hrest : ∀ r ∈ rest, r.length = cols := fun r hr => h r (by simp [hr])
    cases i with
    | zero =>
      simp only [List.flatten_cons, Nat.zero_mul, Nat.zero_add]
      rw [List.getElem?_append_left (by omega)]
      simp
    | succ i =>
      simp only [List.flatten_cons]
      rw [List.getElem?_append_right (by rw [hrow, Nat.succ_mul]; omega)]
      have harith : (i + 1) * cols + j - row.length = i * cols + j := by
        rw [hrow, Nat.succ_mul]; omega
      rw [harith]
      have := ih i j hrest (by simpa using hi) hj
      simpa using this

lemma captureName_ne_empty (t : String) (now : Nat) : captureName t now ≠ "" := by
  intro h
  have hlen := congrArg String.length h
  rw [captureName] at hlen
  simp only [String.length_append] at hlen
  have h8 : ("capture_" : String).length = 8 := rfl
  have h4 : (".npz" : String).length = 4 := rfl
  have hu : ("_" : String).length = 1 := rfl
  have h0 : ("" : String).length = 0 := rfl
  omega

lemma uploadLoop_append (parse : List Nat → Option Grid)
    (writeOk : String → List Nat → Bool) (parseAngle : String → Option F32)
    (now : Nat) :
    ∀ (xs ys : List MpField) (acc : UpAcc),
      uploadLoop parse writeOk parseAngle now (xs ++ ys) acc =
        (uploadLoop parse writeOk parseAngle now xs acc).bind
          (uploadLoop parse writeOk parseAngle now ys) := by
  intro xs
  induction xs with
  | nil => intro ys acc; rfl
  | cons f rest ih =>
    intro ys acc
    by_cases h1 : f.name = "turbine_token"
    · simp [uploadLoop, h1, ih]
    · by_cases h2 : f.name = "angle"
      · simp [uploadLoop, h1, h2, ih]
      · by_cases h3 : f.name = "dataset_file"
        · by_cases hw : writeOk (captureName acc.turbine_token now) f.bytes
          · simp [uploadLoop, h1, h2, h3, hw, ih]
          · simp [uploadLoop, h1, h2, h3, hw, Except.bind]
        · simp [uploadLoop, h1, h2, h3, ih]

lemma uploadLoop_no_dataset (parse : List Nat → Option Grid)
    (writeOk : String → List Nat → Bool) (parseAngle : String → Option F32)
    (now : Nat) :
    ∀ (fields : List MpField) (acc : UpAcc),
      (∀ f ∈ fields, f.name ≠ "dataset_file") →
      uploadLoop parse writeOk parseAngle now fields acc =
        .ok { acc with
                turbine_token := tokFold fields acc.turbine_token
                angle := angFold parseAngle fields acc.angle } := by
  intro fields
  induction fields with
  | nil => intro acc _; rfl
  | cons f rest ih =>
    intro acc h
    have hf : f.name ≠ "dataset_file" := h f (by simp)
    have hrest : ∀ g ∈ rest, g.name ≠ "dataset_file" := fun g hg => h g (by simp [hg])
    by_cases h1 : f.name = "turbine_token"
    · have h2 : ¬ f.name = "angle" := by rw [h1]; decide
      cases htxt : f.text <;>
        simp [uploadLoop, h1, h2, tokFold, angFold, htxt, ih _ hrest]
    · by_cases h2 : f.name = "angle"
      · cases htxt : f.text <;>
          simp [uploadLoop, h1, h2, tokFold, angFold, htxt, ih _ hrest]
      · simp [uploadLoop, h1, h2, hf, tokFold, angFold, ih _ hrest]

lemma uploadLoop_dataset_step (parse : List Nat → Option Grid)
    (writeOk : String → List Nat → Bool) (parseAngle : String → Option F32)
    (now : Nat) (f : MpField) (rest : List MpField) (acc : UpAcc)
    (hf : f.name = "dataset_file") :
    uploadLoop parse writeOk parseAngle now (f :: rest) acc =
      if writeOk (captureName acc.turbine_token now) f.bytes then
        uploadLoop parse writeOk parseAngle now rest
          { acc with
              file_saved_name := captureName acc.turbine_token now
              temp_max_detected :=
                match parse f.bytes with
                | some matrix => foldMax matrix
                | none => acc.temp_max_detected
              writes := acc.writes ++ [(captureName acc.turbine_token now, f.bytes)] }
      else .error { acc with file_saved_name := captureName acc.turbine_token now } := by
  have h1 : ¬ f.name = "turbine_token" := by rw [hf]; decide
  have h2 : ¬ f.name = "angle" := by rw [hf]; decide
  simp only [uploadLoop, h1, h2, hf, if_false, if_true]
  rw [if_neg (by decide : ¬ ("dataset_file" : String) = "turbine_token"),
    if_neg (by decide : ¬ ("dataset_file" : String) = "angle")]

lemma uploadLoop_all_writes_ok (parse : List Nat → Option Grid)
    (writeOk : String → List Nat → Bool) (parseAngle : String → Option F32)
    (now : Nat) (hw : ∀ n d, writeOk n d = true) :
    ∀ (fields : List MpField) (acc : UpAcc),
      (∀ f ∈ fields, f.name = "dataset_file" → parse f.bytes = none) →
      ∃ acc2, uploadLoop parse writeOk parseAngle now fields acc = .ok acc2
        ∧ acc2.temp_max_detected = acc.temp_max_detected
        ∧ (fields.any (fun f => f.name == "dataset_file") = true →
            ∃ t, acc2.file_saved_name = captureName t now)
        ∧ (fields.any (fun f => f.name == "dataset_file") = false →
            acc2.file_saved_name = acc.file_saved_name) := by
  intro fields
  induction fields with
  | nil =>
    intro acc _
    exact ⟨acc, rfl, rfl, by simp, fun _ => rfl⟩
  | cons f rest ih =>
    intro acc h
    have hrest : ∀ g ∈ rest, g.name = "dataset_file" → parse g.bytes = none :=
      fun g hg => h g (by simp [hg])
    by_cases h3 : f.name = "dataset_file"
    · have hpn : parse f.bytes = none := h f (by simp) h3
      rw [uploadLoop_dataset_step parse writeOk parseAngle now f rest acc h3,
        hw (captureName acc.turbine_token now) f.bytes, if_pos rfl]
      obtain ⟨acc2, hacc2, htemp, hany, hnone⟩ := ih _ hrest
      refine ⟨acc2, hacc2, ?_, ?_, ?_⟩
      · rw [htemp, hpn]
      · intro _
        by_cases hr : rest.any (fun f => f.name == "dataset_file") = true
        · exact hany hr
        · refine ⟨acc.turbine_token, ?_⟩
          rw [hnone (by simpa using hr)]
      · intro hfalse
        exact absurd hfalse (by simp [h3])
    · by_cases h1 : f.name = "turbine_token"
      · have h2 : ¬ f.name = "angle" := by rw [h1]; decide
        simp only [uploadLoop, h1, if_true]
        obtain ⟨acc2, hacc2, htemp, hany, hnone⟩ := ih _ hrest
        exact ⟨acc2, hacc2, htemp, by simpa [h3] using hany,
          by simpa [h3] using hnone⟩
      · by_cases h2 : f.name = "angle"
        · simp only [uploadLoop, h1, if_false, h2, if_true]
          obtain ⟨acc2, hacc2, htemp, hany, hnone⟩ := ih _ hrest
          exact ⟨acc2, hacc2, htemp, by simpa [h3] using hany,
            by simpa [h3] using hnone⟩
        · simp only [uploadLoop, h1, h2, h3, if_false]
          obtain ⟨acc2, hacc2, htemp, hany, hnone⟩ := ih _ hrest
          exact ⟨acc2, hacc2, htemp, by simpa [h3] using hany,
            by simpa [h3] using hnone⟩

/-! Claim theorems. -/

/-- C1 (counterexample): at the concrete traversal filename
`../../etc/passwd` — resolving, as on a real system, to an existing file
that is not a valid npy payload — the matrix endpoint performs a
filesystem access and answers with a server error (500), not a client
error: the claim that both endpoints reject without filesystem access is
false for the matrix endpoint. -/
theorem traversal_matrix_unchecked_cex :
    containsTraversal "../../etc/passwd" = true
    ∧ (get_matrix_handler trFs badParse "../../etc/passwd" 0).fsAccessed = true
    ∧ (get_matrix_handler trFs badParse "../../etc/passwd" 0).result =
        .error .internalServerError
    ∧ HStatus.isClientError .internalServerError = false := by
  decide

/-- C1 (amended): for every filename containing a path-traversal sequence,
the download endpoint returns a 400 client error without any filesystem
access; the matrix endpoint performs no traversal check at all — it always
accesses the filesystem, for traversal filenames included. -/
theorem traversal_download_rejected_matrix_unchecked
    (fs : String → Option (List Nat)) (filename : String)
    (h : containsTraversal filename = true) :
    download_file_handler fs filename = { status := .badRequest, fsAccessed := false }
    ∧ ∀ (parse : List Nat → Option Grid) (frame_index : Nat),
        (get_matrix_handler fs parse filename frame_index).fsAccessed = true := by
  constructor
  · simp [download_file_handler, h]
  · intro parse frame_index
    cases hfs : fs filename with
    | none => simp [get_matrix_handler, hfs]
    | some bytes =>
      cases hp : parse bytes with
      | none => simp [get_matrix_handler, hfs, hp]
      | some matrix =>
        by_cases hfi : frame_index > 0 <;>
          simp [get_matrix_handler, hfs, hp, hfi]

/-- C1 (witness for the amended theorem) at `../../etc/passwd`. -/
theorem traversal_download_rejected_matrix_unchecked_witness :
    download_file_handler trFs "../../etc/passwd" =
      { status := .badRequest, fsAccessed := false }
    ∧ (get_matrix_handler trFs badParse "../../etc/passwd" 0).fsAccessed = true := by
  have h := traversal_download_rejected_matrix_unchecked trFs "../../etc/passwd"
    (by decide)
  exact ⟨h.1, h.2 badParse 0⟩

/-- C3: for every stored `LiveStatus` and read time `now` (both inside the
`u64` range), the status read returns the stored value with
`is_online = false` and `mode = "Lost Connection"` exactly when
`now - last_update > 5` seconds, the stored value unchanged otherwise, and
in both cases the stored state is not mutated by the read. -/
theorem live_status_staleness (stored : LiveStatus) (now : Nat)
    (h1 : stored.last_update < 2 ^ 64) (h2 : now < 2 ^ 64) :
    (5 < now - stored.last_update →
      get_live_status stored now =
        ({ stored with is_online := false, mode := "Lost Connection" }, stored))
    ∧ (¬ 5 < now - stored.last_update →
      get_live_status stored now = (stored, stored)) := by
  constructor
  · intro h
    have hc : saturatingAdd64 stored.last_update 5 < now := by
      unfold saturatingAdd64; split <;> omega
    simp [get_live_status, hc]
  · intro h
    have hc : ¬ saturatingAdd64 stored.last_update 5 < now := by
      unfold saturatingAdd64; split <;> omega
    simp [get_live_status, hc]

/-- C3 (witness): a heartbeat stamped at time 0 read at time 10 reports
offline with mode `Lost Connection`; read at time 3 it is returned
unchanged; the stored record stays intact both times. -/
theorem live_status_staleness_witness :
    get_live_status stored0 10 =
      ({ stored0 with is_online := false, mode := "Lost Connection" }, stored0)
    ∧ get_live_status stored0 3 = (stored0, stored0) :=
  ⟨(live_status_staleness stored0 10 (by decide) (by decide)).1 (by decide),
   (live_status_staleness stored0 3 (by decide) (by decide)).2 (by decide)⟩

/-- C7 (counterexample): the grid `[[NaN, 1]]` contains a NaN, yet the
matrix endpoint reports `min_temp = max_temp = 1`, not NaN — Rust
`f32::min`/`f32::max` return the non-NaN operand, so NaN does not
propagate through the reductions. -/
theorem nan_propagation_cex :
    (get_matrix_handler nanFs nanParse "n.npz" 0).result =
      .ok { width := 2, height := 1, min_temp := F32.finite 1,
            max_temp := F32.finite 1, pixels := [F32.nan, F32.finite 1] }
    ∧ foldMax gnan = F32.finite 1
    ∧ F32.finite 1 ≠ F32.nan := by
  decide

/-- C7 (amended): NaN elements are ignored by both reductions (the matrix
endpoint statistics and the upload max-temperature computation use the
same folds): filtering the NaN entries out of the element list changes
neither the min fold nor the max fold, so the result is the min/max of the
non-NaN elements (and `+inf` / `-inf` for an all-NaN grid). -/
theorem nan_ignored_in_reductions (g : Grid) :
    foldMin g =
      (g.data.flatten.filter (fun x => !decide (x = F32.nan))).foldl F32.min F32.inf
    ∧ foldMax g =
      (g.data.flatten.filter (fun x => !decide (x = F32.nan))).foldl F32.max
        F32.neginf := by
  constructor
  · exact foldl_skip_nan F32.min (fun a _ => F32.min_nan_right a)
      F32.min_ne_nan g.data.flatten F32.inf (by decide)
  · exact foldl_skip_nan F32.max (fun a _ => F32.max_nan_right a)
      F32.max_ne_nan g.data.flatten F32.neginf (by decide)

/-- C8 (counterexample): `bad.npz` exists but its payload is malformed; the
evolution endpoint does not surface a server error — it succeeds with an
empty list. -/
theorem decode_error_evolution_cex :
    badFs "bad.npz" = some [9]
    ∧ badParse [9] = none
    ∧ get_evolution_data badFs badParse favg0 "bad.npz" = [] := by
  decide

/-- C8 (amended): for every existing stored file with a malformed payload,
the matrix endpoint surfaces the decode failure as a 500 server error (for
every frame index), while the evolution endpoint succeeds with an empty
list instead of surfacing an error. -/
theorem decode_error_matrix_500_evolution_empty
    (fs : String → Option (List Nat)) (parse : List Nat → Option Grid)
    (favg : Grid → F32) (filename : String) (bytes : List Nat)
    (h1 : fs filename = some bytes) (h2 : parse bytes = none) :
    (∀ frame_index,
      (get_matrix_handler fs parse filename frame_index).result =
        .error .internalServerError)
    ∧ HStatus.isClientError .internalServerError = false
    ∧ get_evolution_data fs parse favg filename = [] := by
  refine ⟨fun frame_index => ?_, by decide, ?_⟩
  · simp [get_matrix_handler, h1, h2]
  · simp [get_evolution_data, h1, h2]

/-- C8 (witness for the amended theorem) at `bad.npz`. -/
theorem decode_error_matrix_500_evolution_empty_witness :
    (get_matrix_handler badFs badParse "bad.npz" 0).result =
      .error .internalServerError
    ∧ get_evolution_data badFs badParse favg0 "bad.npz" = [] := by
  have h := decode_error_matrix_500_evolution_empty badFs badParse favg0
    "bad.npz" [9] (by decide) (by decide)
  exact ⟨h.1 0, h.2.2⟩

/-- C9 (counterexample): requesting frame 1 of an existing file whose
payload fails to decode yields a 500 server error, not a client error —
the decode runs before the `frame_index` check, so not every
`frame_index != 0` request is rejected with a client error. -/
theorem frame_index_nonzero_cex :
    (get_matrix_handler badFs badParse "bad.npz" 1).result =
      .error .internalServerError
    ∧ HStatus.isClientError .internalServerError = false := by
  decide

/-- C9 (amended): a request with `frame_index != 0` is rejected with a 400
client error whenever the file exists and decodes (single-frame files
only); when the file is missing the request fails 404 (still a client
error), but a decode failure yields a 500 server error even for
`frame_index != 0`. -/
theorem frame_index_nonzero_rejected
    (fs : String → Option (List Nat)) (parse : List Nat → Option Grid)
    (filename : String) (frame_index : Nat) (bytes : List Nat) (g : Grid)
    (h1 : fs filename = some bytes) (h2 : parse bytes = some g)
    (h3 : 0 < frame_index) :
    (get_matrix_handler fs parse filename frame_index).result = .error .badRequest
    ∧ HStatus.isClientError .badRequest = true := by
  refine ⟨?_, by decide⟩
  simp [get_matrix_handler, h1, h2, h3]

/-- C9 (witness for the amended theorem): frame 1 of the stored 2×2 capture
answers 400. -/
theorem frame_index_nonzero_rejected_witness :
    (get_matrix_handler mFs mParse "a.npz" 1).result = .error .badRequest
    ∧ HStatus.isClientError .badRequest = true :=
  frame_index_nonzero_rejected mFs mParse "a.npz" 1 [0] g22 (by decide)
    (by decide) (by decide)

/-- C4: for every stored single-frame file decoding to a `rows × cols`
grid, the matrix endpoint at frame index 0 returns `width = cols`,
`height = rows`, `min_temp` the fold of `f32::min` over all elements
seeded at `+infinity`, `max_temp` the fold of `f32::max` seeded at
`-infinity`, and `pixels` all elements flattened; the flattened list has
`rows * cols` entries and entry `i * cols + j` is element `(i, j)` of the
grid — row-major `(row, col)` iteration order. -/
theorem matrix_frame0_stats
    (fs : String → Option (List Nat)) (parse : List Nat → Option Grid)
    (filename : String) (bytes : List Nat) (g : Grid)
    (hfs : fs filename = some bytes) (hp : parse bytes = some g) (hwf : g.WF) :
    get_matrix_handler fs parse filename 0 =
      { result := .ok
          { width := g.cols
            height := g.rows
            min_temp := foldMin g
            max_temp := foldMax g
            pixels := g.data.flatten }
        fsAccessed := true }
    ∧ g.data.flatten.length = g.rows * g.cols
    ∧ ∀ i j : Nat, i < g.rows → j < g.cols →
        g.data.flatten[i * g.cols + j]? = g.data[i]?.bind (fun row => row[j]?) := by
  obtain ⟨hlen, hrows⟩ := hwf
  refine ⟨?_, ?_, ?_⟩
  · simp [get_matrix_handler, hfs, hp, foldMin, foldMax]
  · rw [flatten_rect_length g.cols g.data hrows, hlen]
  · intro i j hi hj
    exact flatten_rect_get g.cols g.data i j hrows (by omega) hj

/-- C4 (witness): the spec scenario — the 2×2 grid `[[1,2],[3,4]]` stored
as `a.npz` yields `{width: 2, height: 2, min_temp: 1, max_temp: 4,
pixels: [1,2,3,4]}` at frame 0, and pixel `1 * cols + 0` is element
`(1, 0)` of the grid. -/
theorem matrix_frame0_stats_witness :
    get_matrix_handler mFs mParse "a.npz" 0 =
      { result := .ok
          { width := g22.cols
            height := g22.rows
            min_temp := foldMin g22
            max_temp := foldMax g22
            pixels := g22.data.flatten }
        fsAccessed := true }
    ∧ g22.data.flatten[1 * g22.cols + 0]? = g22.data[1]?.bind (fun row => row[0]?)
    ∧ get_matrix_handler mFs mParse "a.npz" 0 =
      { result := .ok
          { width := 2, height := 2, min_temp := F32.finite 1,
            max_temp := F32.finite 4,
            pixels := [F32.finite 1, F32.finite 2, F32.finite 3, F32.finite 4] }
        fsAccessed := true } := by
  have h := matrix_frame0_stats mFs mParse "a.npz" [0] g22 (by decide) (by decide)
    (by decide)
  exact ⟨h.1, h.2.2 1 0 (by decide) (by decide), by decide⟩

/-- C2: the alert ring stays at 50 records or fewer after any upload
operation starting from a state within the bound (hence after every
operation of any sequence of uploads, by induction along the sequence);
and pushing 51 records onto the empty ring through the ring operation the
upload performs leaves exactly the 50 newest, listed newest-first by the
alerts read — the oldest pushed record is gone. -/
theorem alert_ring_bounded_newest_first :
    (∀ (parse : List Nat → Option Grid) (writeOk : String → List Nat → Bool)
      (parseAngle : String → Option F32) (now : Nat) (newId : String)
      (fields : List MpField) (alerts0 : List AlertRecord),
      (get_alerts alerts0).length ≤ 50 →
      (get_alerts (upload_handler parse writeOk parseAngle now newId fields
        alerts0).alerts).length ≤ 50)
    ∧ (∀ (r0 : AlertRecord) (rest : List AlertRecord),
      rest.length = 50 → r0 ∉ rest →
      get_alerts ((r0 :: rest).foldl (fun ring r => pushRing r ring) []) =
        rest.reverse
      ∧ r0 ∉ get_alerts ((r0 :: rest).foldl (fun ring r => pushRing r ring) [])) := by
  constructor
  · intro parse writeOk parseAngle now newId fields alerts0 h
    simp only [get_alerts] at h ⊢
    unfold upload_handler
    cases uploadLoop parse writeOk parseAngle now fields
        { turbine_token := "", angle := F32.finite 0, file_saved_name := ""
          temp_max_detected := F32.finite 0, writes := [] } with
    | error acc => simpa using h
    | ok acc =>
      by_cases hf : acc.file_saved_name ≠ ""
      · simpa [hf] using pushRing_length _ alerts0 h
      · simpa [hf] using h
  · intro r0 rest hrest hr0
    have hfold := foldl_pushRing (r0 :: rest) [] (by simp)
    rw [List.append_nil, List.reverse_cons] at hfold
    have hlen : rest.reverse.length = 50 := by simp [hrest]
    have heq : (r0 :: rest).foldl (fun ring r => pushRing r ring) [] =
        rest.reverse := by
      rw [hfold, ← hlen, List.take_left]
    refine ⟨heq, ?_⟩
    rw [get_alerts, heq, List.mem_reverse]
    exact hr0

/-- C2 (witness): one upload on an empty ring stays within the bound, and
after the 51 pushes of `rec0` followed by the 50 distinct records of
`rest50`, the first-pushed record `rec0` is no longer in the alerts
list. -/
theorem alert_ring_bounded_newest_first_witness :
    (get_alerts (upload_handler mParse wOkTrue paNone 7 "id0"
      [tokField, dsField] []).alerts).length ≤ 50
    ∧ rec0 ∉ get_alerts ((rec0 :: rest50).foldl (fun ring r => pushRing r ring) []) := by
  have h := alert_ring_bounded_newest_first
  exact ⟨h.1 mParse wOkTrue paNone 7 "id0" [tokField, dsField] [] (by decide),
    (h.2 rec0 rest50 (by decide) (by decide)).2⟩

/-- C5: an `AlertRecord` is appended to the alert ring exactly when a
`dataset_file` field was present and its bytes were saved successfully.
With at most one `dataset_file` field (here: none in `pre`/`post`):
without the field the ring is unchanged; if the field is present and the
save fails, the handler reports `"write_error"`, writes nothing and leaves
the ring unchanged; if the save succeeds, exactly one record is pushed. -/
theorem upload_alert_iff_file_saved
    (parse : List Nat → Option Grid) (writeOk : String → List Nat → Bool)
    (parseAngle : String → Option F32) (now : Nat) (newId : String)
    (alerts0 : List AlertRecord) (pre post : List MpField) (f : MpField)
    (hf : f.name = "dataset_file")
    (hpre : ∀ g ∈ pre, g.name ≠ "dataset_file")
    (hpost : ∀ g ∈ post, g.name ≠ "dataset_file") :
    (upload_handler parse writeOk parseAngle now newId (pre ++ post) alerts0).alerts
      = alerts0
    ∧ (writeOk (captureName (tokFold pre "") now) f.bytes = false →
        upload_handler parse writeOk parseAngle now newId (pre ++ f :: post) alerts0 =
          { response := "write_error", writes := [], alerts := alerts0 })
    ∧ (writeOk (captureName (tokFold pre "") now) f.bytes = true →
        upload_handler parse writeOk parseAngle now newId (pre ++ f :: post) alerts0 =
          { response := "upload_success"
            writes := [(captureName (tokFold pre "") now, f.bytes)]
            alerts := pushRing
              { id := newId
                timestamp := now
                turbine_token := tokFold post (tokFold pre "")
                max_temp :=
                  match parse f.bytes with
                  | some g => foldMax g
                  | none => F32.finite 0
                angle := angFold parseAngle post (angFold parseAngle pre (F32.finite 0))
                dataset_path := captureName (tokFold pre "") now }
              alerts0 }) := by
  refine ⟨?_, ?_, ?_⟩
  · have hnd : ∀ g ∈ pre ++ post, g.name ≠ "dataset_file" := by
      intro g hg
      rcases List.mem_append.mp hg with hg | hg
      · exact hpre g hg
      · exact hpost g hg
    unfold upload_handler
    rw [uploadLoop_no_dataset parse writeOk parseAngle now _ _ hnd]
    simp
  · intro hw
    unfold upload_handler
    rw [uploadLoop_append, uploadLoop_no_dataset parse writeOk parseAngle now pre _ hpre]
    simp only [Except.bind]
    rw [uploadLoop_dataset_step parse writeOk parseAngle now f post _ hf]
    dsimp only
    rw [hw]
    simp
  · intro hw
    unfold upload_handler
    rw [uploadLoop_append, uploadLoop_no_dataset parse writeOk parseAngle now pre _ hpre]
    simp only [Except.bind]
    rw [uploadLoop_dataset_step parse writeOk parseAngle now f post _ hf]
    dsimp only
    rw [hw]
    simp only [if_true]
    rw [uploadLoop_no_dataset parse writeOk parseAngle now post _ hpost]
    dsimp only
    rw [if_pos (captureName_ne_empty (tokFold pre "") now)]
    rfl

/-- C5 (witness): with all writes succeeding, an upload without the
`dataset_file` field leaves the ring unchanged, and the upload with it
pushes exactly the derived record. -/
theorem upload_alert_iff_file_saved_witness :
    (upload_handler mParse wOkTrue paNone 7 "id1" ([tokField] ++ [angField]) []).alerts
      = []
    ∧ upload_handler mParse wOkTrue paNone 7 "id1"
        ([tokField] ++ dsField :: [angField]) [] =
      { response := "upload_success"
        writes := [(captureName (tokFold [tokField] "") 7, dsField.bytes)]
        alerts := pushRing
          { id := "id1"
            timestamp := 7
            turbine_token := tokFold [angField] (tokFold [tokField] "")
            max_temp :=
              match mParse dsField.bytes with
              | some g => foldMax g
              | none => F32.finite 0
            angle := angFold paNone [angField] (angFold paNone [tokField] (F32.finite 0))
            dataset_path := captureName (tokFold [tokField] "") 7 }
          [] } := by
  have h := upload_alert_iff_file_saved mParse wOkTrue paNone 7 "id1" []
    [tokField] [angField] dsField (by decide) (by decide) (by decide)
  exact ⟨h.1, h.2.2 rfl⟩

/-- C6: when every save succeeds and the uploaded `dataset_file` bytes fail
to parse, the upload still answers `"upload_success"` and the freshly
pushed `AlertRecord` carries `max_temp = 0`.  In the embedding the
analysis (`parse`) is applied to the bytes of the multipart field itself — the
upload handler takes no read access to the filesystem at all, mirroring
`Cursor::new(&data)` on the in-memory bytes at main.rs line 362. -/
theorem upload_parse_failure_graceful
    (parse : List Nat → Option Grid) (writeOk : String → List Nat → Bool)
    (parseAngle : String → Option F32) (now : Nat) (newId : String)
    (fields : List MpField) (alerts0 : List AlertRecord)
    (hw : ∀ n d, writeOk n d = true)
    (hp : ∀ f ∈ fields, f.name = "dataset_file" → parse f.bytes = none)
    (hhas : fields.any (fun f => f.name == "dataset_file") = true) :
    (upload_handler parse writeOk parseAngle now newId fields alerts0).response =
      "upload_success"
    ∧ ((upload_handler parse writeOk parseAngle now newId fields
        alerts0).alerts.head?).map AlertRecord.max_temp = some (F32.finite 0) := by
  obtain ⟨acc2, hacc2, htemp, hany, _⟩ :=
    uploadLoop_all_writes_ok parse writeOk parseAngle now hw fields
      { turbine_token := "", angle := F32.finite 0, file_saved_name := ""
        temp_max_detected := F32.finite 0, writes := [] } hp
  obtain ⟨t, ht⟩ := hany hhas
  have hne : acc2.file_saved_name ≠ "" := by
    rw [ht]; exact captureName_ne_empty t now
  unfold upload_handler
  rw [hacc2]
  dsimp only
  rw [if_pos hne]
  refine ⟨rfl, ?_⟩
  rw [pushRing_head]
  simp [htemp]

/-- C6 (witness): an upload of undecodable bytes with every write
succeeding answers `"upload_success"` and records `max_temp = 0`. -/
theorem upload_parse_failure_graceful_witness :
    (upload_handler badParse wOkTrue paNone 7 "id2" [dsBadField] []).response =
      "upload_success"
    ∧ ((upload_handler badParse wOkTrue paNone 7 "id2" [dsBadField]
        []).alerts.head?).map AlertRecord.max_temp = some (F32.finite 0) :=
  upload_parse_failure_graceful badParse wOkTrue paNone 7 "id2" [dsBadField] []
    (fun _ _ => rfl) (by decide) (by decide)

/-- C10: an upload whose multipart fields contain no `dataset_file` field
still answers the success string `"upload_success"`, writes no file, and
leaves the alert ring unchanged. -/
theorem upload_without_file_succeeds
    (parse : List Nat → Option Grid) (writeOk : String → List Nat → Bool)
    (parseAngle : String → Option F32) (now : Nat) (newId : String)
    (fields : List MpField) (alerts0 : List AlertRecord)
    (h : ∀ g ∈ fields, g.name ≠ "dataset_file") :
    upload_handler parse writeOk parseAngle now newId fields alerts0 =
      { response := "upload_success", writes := [], alerts := alerts0 } := by
  unfold upload_handler
  rw [uploadLoop_no_dataset parse writeOk parseAngle now fields _ h]
  simp

/-- C10 (witness): an upload carrying only `turbine_token` and `angle`
fields succeeds, writes nothing and keeps the ring as it was. -/
theorem upload_without_file_succeeds_witness :
    upload_handler mParse wOkTrue paNone 7 "id3" [tokField, angField] [] =
      { response := "upload_success", writes := [], alerts := [] } :=
  upload_without_file_succeeds mParse wOkTrue paNone 7 "id3"
    [tokField, angField] [] (by decide)

end SentinelCloud
